import Mathlib

/-!
Verification of the Fibonacci gRPC demo service
(`src/posts/2022-04-16/source-code/app.py` and `client.py`).

The service logic is embedded shallowly: Python's arbitrary-precision
integers become `Int`, the generator `generate_fibonacci` becomes a
function returning the finite list of values it yields, and the two
RPC handlers become functions from a request to the response message
(for `GetSequence`) or to the list of streamed messages in emission
order (for `StreamSequence`).
-/

/-- Message `SequenceRequest` (one field `count`, proto `int64`; Python
ints are unbounded, so `Int`). -/
structure SequenceRequest where
  count : Int
deriving DecidableEq, Repr

/-- Message `SequenceResponse` (one field `element`, a repeated integer). -/
structure SequenceResponse where
  element : List Int
deriving DecidableEq, Repr

/-- Message `SequenceElement`: an `element` value plus a `count` field
holding the zero-based stream position produced by Python's `enumerate`. -/
structure SequenceElement where
  element : Int
  count : Nat
deriving DecidableEq, Repr

/-- The `while True` loop of `generate_fibonacci` (app.py lines 19-27):
yield `a`, increment `current_count`, break once `current_count >= count`,
otherwise step `a, b = b, a + b` and continue.  The list collects the
yielded values; the break test is written on the pre-increment counter as
`current_count + 1 ≥ count`. -/
def fibLoop (count a b current_count : Int) : List Int :=
  if current_count + 1 ≥ count then [a]
  else a :: fibLoop count b (a + b) (current_count + 1)
termination_by (count - current_count).toNat
decreasing_by
  simp_wf
  omega

/-- `generate_fibonacci` (app.py lines 15-27): the loop started with
`a, b = 0, 1` and `current_count = 0`. -/
def generate_fibonacci (count : Int) : List Int :=
  fibLoop count 0 1 0

/-- `FibonacciService.GetSequence` (app.py lines 32-40): materialize the
generator output as a list and wrap it in a `SequenceResponse`.  The
unused `context` parameter is omitted; the class holds no instance
state, so `self` plays no role. -/
def GetSequence (request : SequenceRequest) : SequenceResponse :=
  SequenceResponse.mk (generate_fibonacci request.count)

/-- Python's `enumerate` over the generator output, paired with message
construction: `for i, element in enumerate(sequence): yield
SequenceElement(element=element, count=i)`. -/
def streamFrom (i : Nat) : List Int → List SequenceElement
  | [] => []
  | a :: rest => SequenceElement.mk a i :: streamFrom (i + 1) rest

/-- `FibonacciService.StreamSequence` (app.py lines 42-49): one
`SequenceElement` per generated value, carrying its zero-based index,
in emission order. -/
def StreamSequence (request : SequenceRequest) : List SequenceElement :=
  streamFrom 0 (generate_fibonacci request.count)

/-- Port the server binds (`server.add_insecure_port` with the literal
string shown, app.py line 62). -/
def server_bind_address : String := "[::]:5001"

/-- Numeric port in `server_bind_address`. -/
def server_bind_port : Nat := 5001

/-- Target the client connects to (`grpc.insecure_channel` with the
literal string shown, client.py line 8). -/
def client_connect_address : String := "localhost:50051"

/-- Numeric port in `client_connect_address`. -/
def client_connect_port : Nat := 50051

/-- Reference Fibonacci values, used only to state specifications:
`fibFrom a b n` is the length-`n` sequence of the linear recurrence
started at `a`, `b`. -/
def fibFrom (a b : Int) : Nat → List Int
  | 0 => []
  | n + 1 => a :: fibFrom b (a + b) n

lemma fibLoop_eq_fibFrom :
    ∀ (n : Nat) (a b current_count count : Int),
      count - current_count = (n : Int) → 1 ≤ n →
      fibLoop count a b current_count = fibFrom a b n := by
  intro n
  induction n with
  | zero => intro a b cc count h h1; omega
  | succ m ih =>
    intro a b cc count h h1
    rcases Nat.eq_zero_or_pos m with hm | hm
    · subst hm
      rw [fibLoop, if_pos (by omega)]
      rfl
    · rw [fibLoop, if_neg (by omega)]
      rw [ih b (a + b) (cc + 1) count (by omega) hm]
      rfl

lemma generate_fibonacci_eq_fibFrom (count : Int) (h : 1 ≤ count) :
    generate_fibonacci count = fibFrom 0 1 count.toNat := by
  unfold generate_fibonacci
  exact fibLoop_eq_fibFrom count.toNat 0 1 0 count (by omega) (by omega)

lemma generate_fibonacci_of_le_one (count : Int) (h : count ≤ 1) :
    generate_fibonacci count = [0] := by
  unfold generate_fibonacci
  rw [fibLoop, if_pos (by omega)]

lemma fibFrom_fib (n : Nat) :
    ∀ k : Nat, fibFrom (Nat.fib k) (Nat.fib (k + 1)) n =
      (List.range n).map (fun i => (Nat.fib (k + i) : Int)) := by
  induction n with
  | zero => intro k; rfl
  | succ m ih =>
    intro k
    have hstep : (Nat.fib k : Int) + (Nat.fib (k + 1) : Int) =
        (Nat.fib (k + 2) : Int) := by
      rw [Nat.fib_add_two]
      push_cast
      ring
    show (Nat.fib k : Int) ::
        fibFrom (Nat.fib (k + 1)) ((Nat.fib k : Int) + (Nat.fib (k + 1))) m = _
    rw [hstep, ih (k + 1), List.range_succ_eq_map, List.map_cons,
      List.map_map]
    refine congrArg₂ _ (by rw [Nat.add_zero]) ?_
    refine List.map_congr_left ?_
    intro i _
    show (Nat.fib (k + 1 + i) : Int) = (Nat.fib (k + Nat.succ i) : Int)
    have harg : k + 1 + i = k + Nat.succ i := by omega
    rw [harg]

/-- For counts ≥ 1 the generator output is exactly the first `N`
Fibonacci numbers. -/
lemma generate_fibonacci_spec (N : Nat) (h : 1 ≤ N) :
    generate_fibonacci (N : Int) =
      (List.range N).map (fun i => (Nat.fib i : Int)) := by
  rw [generate_fibonacci_eq_fibFrom (N : Int) (by exact_mod_cast h),
    Int.toNat_natCast]
  have h0 : (Nat.fib 0 : Int) = 0 := rfl
  have h1 : (Nat.fib 1 : Int) = 1 := rfl
  calc fibFrom 0 1 N = fibFrom (Nat.fib 0) (Nat.fib 1) N := by rw [h0, h1]
    _ = (List.range N).map (fun i => (Nat.fib (0 + i) : Int)) := fibFrom_fib N 0
    _ = (List.range N).map (fun i => (Nat.fib i : Int)) := by
          refine List.map_congr_left ?_
          intro i _
          rw [Nat.zero_add]

lemma streamFrom_map_element (l : List Int) :
    ∀ i : Nat, (streamFrom i l).map SequenceElement.element = l := by
  induction l with
  | nil => intro i; rfl
  | cons a rest ih =>
    intro i
    show a :: (streamFrom (i + 1) rest).map SequenceElement.element = a :: rest
    rw [ih (i + 1)]

lemma streamFrom_length (l : List Int) :
    ∀ i : Nat, (streamFrom i l).length = l.length := by
  induction l with
  | nil => intro i; rfl
  | cons a rest ih =>
    intro i
    show (streamFrom (i + 1) rest).length + 1 = rest.length + 1
    rw [ih (i + 1)]

lemma streamFrom_map_count (l : List Int) :
    ∀ i : Nat, (streamFrom i l).map SequenceElement.count =
      (List.range l.length).map (fun j => i + j) := by
  induction l with
  | nil => intro i; rfl
  | cons a rest ih =>
    intro i
    show i :: (streamFrom (i + 1) rest).map SequenceElement.count = _
    rw [ih (i + 1)]
    show _ = (List.range (rest.length + 1)).map (fun j => i + j)
    rw [List.range_succ_eq_map, List.map_cons, List.map_map]
    refine congrArg₂ _ (by rw [Nat.add_zero]) ?_
    refine List.map_congr_left ?_
    intro j _
    show i + 1 + j = i + Nat.succ j
    omega

lemma getD_map_range (f : Nat → Int) (N j : Nat) (h : j < N) :
    ((List.range N).map f).getD j 0 = f j := by
  have hlen : j < ((List.range N).map f).length := by
    rw [List.length_map, List.length_range]; exact h
  rw [List.getD_eq_getElem _ _ hlen, List.getElem_map, List.getElem_range]

/-- C1: the spec claims `GetSequence({count:N}).element` is the length-`N`
list `[Fib(0), ..., Fib(N-1)]` for every `N ≥ 0`; it fails at `N = 0`,
where the do-while loop in `generate_fibonacci` still yields one element. -/
theorem C1_counterexample :
    (GetSequence (SequenceRequest.mk 0)).element ≠
      (List.range 0).map (fun i => (Nat.fib i : Int)) := by
  show generate_fibonacci 0 ≠ []
  rw [generate_fibonacci_of_le_one 0 (by norm_num)]
  simp

/-- C1 (amended): for every `N ≥ 1`, `GetSequence({count:N}).element` has
length `N` and equals `[Fib(0), ..., Fib(N-1)]` with `Fib(0)=0, Fib(1)=1`. -/
theorem C1_amended (N : Nat) (h : 1 ≤ N) :
    (GetSequence (SequenceRequest.mk (N : Int))).element =
        (List.range N).map (fun i => (Nat.fib i : Int)) ∧
      (GetSequence (SequenceRequest.mk (N : Int))).element.length = N := by
  have hspec : (GetSequence (SequenceRequest.mk (N : Int))).element =
      (List.range N).map (fun i => (Nat.fib i : Int)) := by
    show generate_fibonacci (N : Int) = _
    exact generate_fibonacci_spec N h
  refine ⟨hspec, ?_⟩
  rw [hspec, List.length_map, List.length_range]

/-- C1 witness: the amended statement instantiated at `N = 5`. -/
theorem C1_witness :
    1 ≤ 5 ∧
      ((GetSequence (SequenceRequest.mk ((5 : Nat) : Int))).element =
          (List.range 5).map (fun i => (Nat.fib i : Int)) ∧
        (GetSequence (SequenceRequest.mk ((5 : Nat) : Int))).element.length = 5) :=
  ⟨by norm_num, C1_amended 5 (by norm_num)⟩

/-- C2: for every request, the values of the messages emitted by
`StreamSequence`, concatenated in emission order, equal
`GetSequence`'s element list, and each message's `count` field is its
zero-based position in the stream. -/
theorem C2_stream_consistent (request : SequenceRequest) :
    (StreamSequence request).map SequenceElement.element =
        (GetSequence request).element ∧
      (StreamSequence request).map SequenceElement.count =
        List.range (StreamSequence request).length := by
  constructor
  · show (streamFrom 0 (generate_fibonacci request.count)).map
        SequenceElement.element = generate_fibonacci request.count
    exact streamFrom_map_element _ 0
  · show (streamFrom 0 (generate_fibonacci request.count)).map
        SequenceElement.count = _
    rw [streamFrom_map_count _ 0]
    show _ = List.range (streamFrom 0 (generate_fibonacci request.count)).length
    rw [streamFrom_length _ 0]
    calc ((List.range (generate_fibonacci request.count).length).map
            fun j => 0 + j) =
        (List.range (generate_fibonacci request.count).length).map
            fun j => j := by
          refine List.map_congr_left ?_
          intro j _
          rw [Nat.zero_add]
      _ = List.range (generate_fibonacci request.count).length := List.map_id _

/-- C3: the spec claims `count = 0` produces zero elements from both
operations; in fact both produce one element, because the generator's
loop yields before checking the break condition. -/
theorem C3_counterexample :
    (GetSequence (SequenceRequest.mk 0)).element ≠ [] ∧
      StreamSequence (SequenceRequest.mk 0) ≠ [] := by
  have h0 : generate_fibonacci 0 = [0] :=
    generate_fibonacci_of_le_one 0 (by norm_num)
  constructor
  · show generate_fibonacci 0 ≠ []
    rw [h0]; simp
  · show streamFrom 0 (generate_fibonacci 0) ≠ []
    rw [h0]; simp [streamFrom]

/-- C3 (amended): on `count = 0` both operations produce exactly one
element: `GetSequence` returns `[0]` and `StreamSequence` emits the
single message `(element=0, count=0)`; no error is raised. -/
theorem C3_amended :
    (GetSequence (SequenceRequest.mk 0)).element = [0] ∧
      StreamSequence (SequenceRequest.mk 0) = [SequenceElement.mk 0 0] := by
  have h0 : generate_fibonacci 0 = [0] :=
    generate_fibonacci_of_le_one 0 (by norm_num)
  constructor
  · show generate_fibonacci 0 = [0]
    exact h0
  · show streamFrom 0 (generate_fibonacci 0) = [SequenceElement.mk 0 0]
    rw [h0]
    rfl

/-- C4: results of both operations are fully determined by the request's
`count`: any two calls with equal counts return identical results, so no
state is carried between calls (the Python class has no instance
attributes and each call builds a fresh generator). -/
theorem C4_no_hidden_state (r1 r2 : SequenceRequest) (h : r1.count = r2.count) :
    GetSequence r1 = GetSequence r2 ∧ StreamSequence r1 = StreamSequence r2 := by
  unfold GetSequence StreamSequence
  rw [h]
  exact ⟨rfl, rfl⟩

/-- C4 witness: two calls with `count = 20` agree. -/
theorem C4_witness :
    (SequenceRequest.mk 20).count = (SequenceRequest.mk 20).count ∧
      (GetSequence (SequenceRequest.mk 20) = GetSequence (SequenceRequest.mk 20) ∧
        StreamSequence (SequenceRequest.mk 20) =
          StreamSequence (SequenceRequest.mk 20)) :=
  ⟨rfl, C4_no_hidden_state (SequenceRequest.mk 20) (SequenceRequest.mk 20) rfl⟩

/-- C5: the spec claims `generate_fibonacci` produces exactly `count`
integers for every non-negative `count`; it fails at `count = 0`, where
one element is produced. -/
theorem C5_counterexample : (generate_fibonacci 0).length ≠ 0 := by
  rw [generate_fibonacci_of_le_one 0 (by norm_num)]
  simp

/-- C5 (amended): for every `count ≥ 1` the generator terminates with
exactly `count` integers following the Fibonacci recurrence from 0, 1
(at `count = 0` it instead produces the single element 0). -/
theorem C5_amended (N : Nat) (h : 1 ≤ N) :
    (generate_fibonacci (N : Int)).length = N ∧
      generate_fibonacci (N : Int) =
        (List.range N).map (fun i => (Nat.fib i : Int)) := by
  have hspec := generate_fibonacci_spec N h
  refine ⟨?_, hspec⟩
  rw [hspec, List.length_map, List.length_range]

/-- C5 witness: the amended statement instantiated at `N = 3`. -/
theorem C5_witness :
    1 ≤ 3 ∧
      ((generate_fibonacci ((3 : Nat) : Int)).length = 3 ∧
        generate_fibonacci ((3 : Nat) : Int) =
          (List.range 3).map (fun i => (Nat.fib i : Int))) :=
  ⟨by norm_num, C5_amended 3 (by norm_num)⟩

/-- C6: on `count = 5`, `GetSequence` returns `[0, 1, 1, 2, 3]` and
`StreamSequence` emits exactly the pairs
`(0,0), (1,1), (1,2), (2,3), (3,4)` in that order. -/
theorem C6_count_five :
    (GetSequence (SequenceRequest.mk 5)).element = [0, 1, 1, 2, 3] ∧
      StreamSequence (SequenceRequest.mk 5) =
        [SequenceElement.mk 0 0, SequenceElement.mk 1 1, SequenceElement.mk 1 2,
          SequenceElement.mk 2 3, SequenceElement.mk 3 4] := by
  have h5 : generate_fibonacci 5 = [0, 1, 1, 2, 3] := by
    rw [generate_fibonacci_eq_fibFrom 5 (by norm_num)]
    rfl
  constructor
  · show generate_fibonacci 5 = [0, 1, 1, 2, 3]
    exact h5
  · show streamFrom 0 (generate_fibonacci 5) = _
    rw [h5]
    rfl

/-- C7: on `count = 1`, both operations produce exactly the
single-element sequence `[0]` (the stream's one message is `(0, 0)`). -/
theorem C7_count_one :
    (GetSequence (SequenceRequest.mk 1)).element = [0] ∧
      StreamSequence (SequenceRequest.mk 1) = [SequenceElement.mk 0 0] := by
  have h1 : generate_fibonacci 1 = [0] :=
    generate_fibonacci_of_le_one 1 (by norm_num)
  constructor
  · show generate_fibonacci 1 = [0]
    exact h1
  · show streamFrom 0 (generate_fibonacci 1) = [SequenceElement.mk 0 0]
    rw [h1]
    rfl

/-- C8: the server binds all interfaces at port 5001 while the client
connects to port 50051; the two default ports differ. -/
theorem C8_port_mismatch :
    server_bind_address = "[::]:5001" ∧
      client_connect_address = "localhost:50051" ∧
      server_bind_port = 5001 ∧
      client_connect_port = 50051 ∧
      server_bind_port ≠ client_connect_port :=
  ⟨rfl, rfl, rfl, rfl, by decide⟩

/-- C9: for every `count ≤ 1` — including 0 and all negative counts —
the generator yields exactly `[0]`, `GetSequence` returns `[0]`, and
`StreamSequence` emits the single message `(element=0, count=0)`. -/
theorem C9_le_one (count : Int) (h : count ≤ 1) :
    generate_fibonacci count = [0] ∧
      (GetSequence (SequenceRequest.mk count)).element = [0] ∧
      StreamSequence (SequenceRequest.mk count) = [SequenceElement.mk 0 0] := by
  have h0 : generate_fibonacci count = [0] :=
    generate_fibonacci_of_le_one count h
  refine ⟨h0, h0, ?_⟩
  show streamFrom 0 (generate_fibonacci count) = [SequenceElement.mk 0 0]
  rw [h0]
  rfl

/-- C9 witness: the statement instantiated at the negative count `-3`. -/
theorem C9_witness :
    (-3 : Int) ≤ 1 ∧
      (generate_fibonacci (-3) = [0] ∧
        (GetSequence (SequenceRequest.mk (-3))).element = [0] ∧
        StreamSequence (SequenceRequest.mk (-3)) = [SequenceElement.mk 0 0]) :=
  ⟨by norm_num, C9_le_one (-3) (by norm_num)⟩

/-- C10: for `N ≥ 3` and `i ≤ N - 3`, the produced sequence satisfies
`element[i+2] = element[i+1] + element[i]` in exact integer arithmetic,
with `element[0] = 0` and `element[1] = 1`; the embedding uses
unbounded `Int`, as Python integers never wrap. -/
theorem C10_recurrence (N i : Nat) (hN : 3 ≤ N) (hi : i ≤ N - 3) :
    (GetSequence (SequenceRequest.mk (N : Int))).element.getD 0 0 = 0 ∧
      (GetSequence (SequenceRequest.mk (N : Int))).element.getD 1 0 = 1 ∧
      (GetSequence (SequenceRequest.mk (N : Int))).element.getD (i + 2) 0 =
        (GetSequence (SequenceRequest.mk (N : Int))).element.getD (i + 1) 0 +
          (GetSequence (SequenceRequest.mk (N : Int))).element.getD i 0 := by
  have hel : (GetSequence (SequenceRequest.mk (N : Int))).element =
      (List.range N).map (fun j => (Nat.fib j : Int)) := by
    show generate_fibonacci (N : Int) = _
    exact generate_fibonacci_spec N (by omega)
  refine ⟨?_, ?_, ?_⟩
  · rw [hel, getD_map_range _ N 0 (by omega)]
    rfl
  · rw [hel, getD_map_range _ N 1 (by omega)]
    rfl
  · rw [hel, getD_map_range _ N (i + 2) (by omega),
      getD_map_range _ N (i + 1) (by omega), getD_map_range _ N i (by omega)]
    rw [Nat.fib_add_two]
    push_cast
    ring

/-- C10 witness: the statement instantiated at `N = 5`, `i = 2`. -/
theorem C10_witness :
    3 ≤ 5 ∧ 2 ≤ 5 - 3 ∧
      ((GetSequence (SequenceRequest.mk ((5 : Nat) : Int))).element.getD 0 0 = 0 ∧
        (GetSequence (SequenceRequest.mk ((5 : Nat) : Int))).element.getD 1 0 = 1 ∧
        (GetSequence (SequenceRequest.mk ((5 : Nat) : Int))).element.getD 4 0 =
          (GetSequence (SequenceRequest.mk ((5 : Nat) : Int))).element.getD 3 0 +
            (GetSequence (SequenceRequest.mk ((5 : Nat) : Int))).element.getD 2 0) :=
  ⟨by norm_num, by norm_num, C10_recurrence 5 2 (by norm_num) (by norm_num)⟩
